import Mathlib

/-!
Shallow embedding of `ldc_html` (file `src/ldc_html/pretrain/_html.py`),
the `HtmlPretrainReader` plugin: a reader that extracts the body text of
HTML files and emits one pretraining record per file.

External collaborators are modelled abstractly:
* the input resolver `seppl.io.locate_files` is modelled by passing the
  resolved path list as an argument, with its `fail_if_empty` behaviour
  embedded (`locate_files`);
* the filesystem is a partial map `fs : String → Option String` from path
  to full file contents;
* the HTML parser (`BeautifulSoup(..., features="html.parser")`) is a
  function `parse : String → Html` into a DOM tree; `soup.body` is
  `findBody` (first `body` element in document order) and
  `tag.get_text(separator=sep)` is `get_text` (all text-node strings in
  document order, joined by the separator).
-/

namespace LdcHtml

/-- A parsed HTML DOM tree: a text node, or an element with a tag name and
a list of children (attributes are irrelevant to text extraction). -/
inductive Html where
  | text (s : String) : Html
  | element (tag : String) (children : List Html) : Html

mutual
/-- All text-node strings of a tree, in document order
(BeautifulSoup's `_all_strings`). -/
def allStrings : Html → List String
  | .text s => [s]
  | .element _ cs => allStringsList cs

/-- Helper: `allStrings` mapped over a child list, concatenated in order. -/
def allStringsList : List Html → List String
  | [] => []
  | c :: cs => allStrings c ++ allStringsList cs
end

/-- BeautifulSoup's `Tag.get_text(separator=sep)`: all text-node strings in
document order, joined by `sep`. -/
def get_text (sep : String) (h : Html) : String :=
  String.intercalate sep (allStrings h)

mutual
/-- BeautifulSoup's `soup.body`: the first element with tag `body`, in
document (preorder) order, if any. -/
def findBody : Html → Option Html
  | .text _ => none
  | .element t cs =>
    if t = "body" then some (.element t cs) else findBodyList cs

/-- Helper: `findBody` over a child list, first hit wins. -/
def findBodyList : List Html → Option Html
  | [] => none
  | c :: cs =>
    match findBody c with
    | some b => some b
    | none => findBodyList cs
end

/-- Python's `str.replace(pattern, replacement)` specialised to a
two-character pattern `a,b` (the only shape the source uses:
`"\\n"`, `"\\r"`, `"\\t"`): scans left to right, replacing
non-overlapping occurrences. -/
def replace2 (a b : Char) (r : List Char) : List Char → List Char
  | [] => []
  | [c] => [c]
  | c :: d :: cs =>
    if c = a ∧ d = b then r ++ replace2 a b r cs
    else c :: replace2 a b r (d :: cs)

/-- Python `s.replace(ab, r)` for a two-character pattern, on `String`. -/
def pyReplace2 (s : String) (a b : Char) (r : String) : String :=
  ⟨replace2 a b r.data s.data⟩

/-- The separator normalisation performed at the end of
`HtmlPretrainReader.initialize`:
`if self.separator is None: self.separator = ""` followed by
`self.separator.replace("\\n", "\n").replace("\\r", "\r").replace("\\t", "\t")`. -/
def normalizeSeparator (sep : Option String) : String :=
  pyReplace2 (pyReplace2 (pyReplace2 (sep.getD "") '\\' 'n' "\n") '\\' 'r' "\r") '\\' 't' "\t"

/-- A pretraining record (`ldc.api.pretrain.PretrainData`) as produced by this
reader: the extracted text and the metadata map (here an association list;
the reader only ever stores the key `"file"`). -/
structure PretrainData where
  content : String
  meta : List (String × String)
deriving DecidableEq, Repr

/-- The mutable state of an `HtmlPretrainReader` instance: the configuration
fields set in `__init__`/`_apply_args`, the resolved input queue `_inputs`
(`none` before `initialize`), the current-input marker `_current_input`,
and the session's `current_input` field. -/
structure ReaderState where
  source : Option (List String)
  source_list : Option (List String)
  separator : Option String
  inputs : Option (List String)
  current_input : Option String
  session_current_input : Option String
deriving DecidableEq, Repr

/-- Model of `HtmlPretrainReader.__init__`: stores the configuration and leaves
`_inputs` and `_current_input` unset. -/
def mkReader (source source_list : Option (List String)) (separator : Option String) :
    ReaderState :=
  { source := source, source_list := source_list, separator := separator,
    inputs := none, current_input := none, session_current_input := none }

/-- Model of `seppl.io.locate_files(source, input_lists=source_list,
fail_if_empty=True, default_glob="*.html")`: the external resolution of
`source`/`source_list` to concrete paths is abstracted as the argument
`resolved`; with `fail_if_empty` set, an empty result raises. -/
def locate_files (resolved : List String) (fail_if_empty : Bool) :
    Except String (List String) :=
  if fail_if_empty && resolved.isEmpty then
    .error "Failed to locate any files!"
  else
    .ok resolved

/-- Model of `HtmlPretrainReader.initialize`: resolve the inputs (with
`fail_if_empty=True`), then normalise the separator in place. -/
def initReader (st : ReaderState) (resolved : List String) :
    Except String ReaderState :=
  match locate_files resolved true with
  | .error e => .error e
  | .ok files =>
    .ok { st with inputs := some files, separator := some (normalizeSeparator st.separator) }

/-- Model of `HtmlPretrainReader.finalize`: if the current-input marker is set, run the
superclass cleanup hook (no modelled state) and clear the marker. -/
def finalize (st : ReaderState) : ReaderState :=
  if st.current_input.isSome then { st with current_input := none } else st

/-- Model of `HtmlPretrainReader.has_finished`: `len(self._inputs) == 0`.
`none` models the `TypeError` of `len(None)` before `initialize`. -/
def has_finished (st : ReaderState) : Option Bool :=
  st.inputs.map List.isEmpty

/-- The Python exceptions the body of `read` can raise. -/
inductive ReadError where
  | notInitialized
  | emptyQueue
  | ioError (path : String)
  | noBody (path : String)
  | separatorUnset
deriving DecidableEq, Repr

/-- The body of `HtmlPretrainReader.read` after the initial `self.finalize()`
call: pop the first queued path (`self._inputs.pop(0)`), record it as the
current-input marker and the session's current input, read the file, parse
it, and yield one record with the body text and `meta = {"file": path}`.
Returns the (single) yielded record or the raised exception, together with
the state as mutated up to that point. -/
def readCore (parse : String → Html) (fs : String → Option String)
    (st : ReaderState) : Except ReadError PretrainData × ReaderState :=
  match st.inputs with
  | none => (.error .notInitialized, st)
  | some [] => (.error .emptyQueue, st)
  | some (p :: rest) =>
    let st2 : ReaderState :=
      { st with inputs := some rest, current_input := some p,
                session_current_input := some p }
    match fs p with
    | none => (.error (.ioError p), st2)
    | some contents =>
      match findBody (parse contents) with
      | none => (.error (.noBody p), st2)
      | some body =>
        match st2.separator with
        | none => (.error .separatorUnset, st2)
        | some sep =>
          (.ok { content := get_text sep body, meta := [("file", p)] }, st2)

/-- Model of `HtmlPretrainReader.read`: `self.finalize()` first, then the pop/extract
body (`readCore`). -/
def read (parse : String → Html) (fs : String → Option String)
    (st : ReaderState) : Except ReadError PretrainData × ReaderState :=
  readCore parse fs (finalize st)

/-- The caller's pull loop: perform up to `k` read cycles, collecting the
yielded records in order; stop early if a read raises. -/
def readLoop (parse : String → Html) (fs : String → Option String) :
    Nat → ReaderState → List PretrainData × ReaderState
  | 0, st => ([], st)
  | k + 1, st =>
    match read parse fs st with
    | (.ok r, st') =>
      let out := readLoop parse fs k st'
      (r :: out.1, out.2)
    | (.error _, st') => ([], st')

/-! ### Demonstration inputs (used by witnesses) -/

/-- The body of the spec's example document `<body>Hello<br>World</body>`,
as `html.parser` parses it. -/
def demoBody : Html :=
  .element "body" [.text "Hello", .element "br" [], .text "World"]

/-- The example document wrapped in BeautifulSoup's document root. -/
def demoDoc : Html := .element "[document]" [demoBody]

/-- A parser model that parses every file to the example document. -/
def demoParse : String → Html := fun _ => demoDoc

/-- A filesystem where every path holds the example HTML. -/
def demoFs : String → Option String := fun _ => some "<body>Hello<br>World</body>"

/-- An initialized reader state with one queued input and empty separator. -/
def demoSt : ReaderState :=
  { source := some ["a.html"], source_list := none, separator := some "",
    inputs := some ["a.html"], current_input := none,
    session_current_input := none }

/-! ### Helper lemmas -/

/-- Unconditional form: `finalize` always results in a cleared marker, whether or not it was set. -/
theorem finalize_eq (st : ReaderState) :
    finalize st = { st with current_input := none } := by
  cases st with
  | mk s sl sep i ci sci => cases ci <;> simp [finalize]

/-- Evaluation of one successful read cycle: with a non-empty queue, a
readable file and a parsed body, `read` yields the body-text record tagged
with the popped path and pops exactly the head of the queue. -/
theorem read_cons (parse : String → Html) (fs : String → Option String)
    (st : ReaderState) (p : String) (rest : List String) (sep c : String) (b : Html)
    (hq : st.inputs = some (p :: rest)) (hsep : st.separator = some sep)
    (hfs : fs p = some c) (hb : findBody (parse c) = some b) :
    read parse fs st =
      (.ok { content := get_text sep b, meta := [("file", p)] },
       { st with inputs := some rest, current_input := some p,
                 session_current_input := some p }) := by
  cases st with
  | mk s sl sep' i ci sci =>
    cases hq
    cases hsep
    cases ci <;> simp [read, finalize, readCore, hfs, hb]

/-- Evaluation of `initialize` on a non-empty resolution: the queue is
populated with the resolved paths and the separator is normalised in place;
nothing else changes. -/
theorem initReader_ok (st : ReaderState) (resolved : List String) (h : resolved ≠ []) :
    initReader st resolved =
      .ok { st with inputs := some resolved,
                    separator := some (normalizeSeparator st.separator) } := by
  have hr : resolved.isEmpty = false := by simp [List.isEmpty_iff, h]
  unfold initReader locate_files
  simp [hr]

/-! ### Claims -/

/-- C1: for every non-empty resolved input queue, a read cycle pops exactly
the first path from the queue (FIFO), yields exactly one record, and that
record's meta map is `{"file": p}` where `p` is the popped path; the rest of
the queue is untouched (never reordered or skipped). -/
theorem c1_read_pops_first_path_meta_file
    (parse : String → Html) (fs : String → Option String)
    (st : ReaderState) (p : String) (rest : List String) (sep c : String) (b : Html)
    (hq : st.inputs = some (p :: rest)) (hsep : st.separator = some sep)
    (hfs : fs p = some c) (hb : findBody (parse c) = some b) :
    read parse fs st =
      (.ok { content := get_text sep b, meta := [("file", p)] },
       { st with inputs := some rest, current_input := some p,
                 session_current_input := some p }) :=
  read_cons parse fs st p rest sep c b hq hsep hfs hb

/-- Witness for C1 on the demonstration inputs. -/
theorem c1_witness :
    read demoParse demoFs demoSt =
      (.ok { content := get_text "" demoBody, meta := [("file", "a.html")] },
       { demoSt with inputs := some [], current_input := some "a.html",
                     session_current_input := some "a.html" }) :=
  c1_read_pops_first_path_meta_file demoParse demoFs demoSt "a.html" [] ""
    "<body>Hello<br>World</body>" demoBody rfl rfl rfl rfl

/-- C2: after a successful `initialize`, the separator equals the empty
string when it was unset, and otherwise the configured string with the
literal two-character sequences `\n`, `\r`, `\t` replaced by the actual
newline, carriage-return and tab characters, sequentially in that order. -/
theorem c2_separator_normalized_after_init
    (st : ReaderState) (resolved : List String) (h : resolved ≠ []) :
    (initReader st resolved).toOption.map ReaderState.separator =
      some (some (match st.separator with
        | none => ""
        | some s =>
          pyReplace2 (pyReplace2 (pyReplace2 s '\\' 'n' "\n") '\\' 'r' "\r")
            '\\' 't' "\t")) := by
  rw [initReader_ok st resolved h]
  cases hsep : st.separator <;>
    simp [normalizeSeparator, hsep, Except.toOption, pyReplace2, replace2]

/-- Witness for C2: a configured separator holding all three escape
sequences is converted to the corresponding control characters. -/
theorem c2_witness :
    (initReader (mkReader none none (some "a\\nb\\rc\\td")) ["f.html"]).toOption.map
        ReaderState.separator = some (some "a\nb\rc\td") := by
  have h := c2_separator_normalized_after_init
    (mkReader none none (some "a\\nb\\rc\\td")) ["f.html"] (by decide)
  exact h.trans (by decide)

/-- C3: when the parsed document has a body, the record's content equals the
concatenation of all text nodes under the body, in document order, joined by
the separator in effect. -/
theorem c3_content_is_body_text_joined
    (parse : String → Html) (fs : String → Option String)
    (st : ReaderState) (p : String) (rest : List String) (sep c : String) (b : Html)
    (hq : st.inputs = some (p :: rest)) (hsep : st.separator = some sep)
    (hfs : fs p = some c) (hb : findBody (parse c) = some b) :
    (read parse fs st).1.toOption.map PretrainData.content =
      some (String.intercalate sep (allStrings b)) := by
  rw [read_cons parse fs st p rest sep c b hq hsep hfs hb]
  rfl

/-- Witness for C3: the spec's example `<body>Hello<br>World</body>` with
separator `""` extracts to `"HelloWorld"`, with no inserted characters. -/
theorem c3_witness :
    (read demoParse demoFs demoSt).1.toOption.map PretrainData.content =
      some "HelloWorld" := by
  have h := c3_content_is_body_text_joined demoParse demoFs demoSt "a.html" [] ""
    "<body>Hello<br>World</body>" demoBody rfl rfl rfl rfl
  exact h.trans (by decide)

/-- C4: when source/source_list resolve to zero files, `initialize` fails
(the resolver is called with `fail_if_empty` set), and a read on the
never-initialized reader yields no record (it raises); the failure occurs
before any read is possible. -/
theorem c4_empty_resolution_fails
    (source source_list : Option (List String)) (separator : Option String)
    (parse : String → Html) (fs : String → Option String) :
    initReader (mkReader source source_list separator) [] =
        .error "Failed to locate any files!" ∧
    locate_files [] true = .error "Failed to locate any files!" ∧
    (read parse fs (mkReader source source_list separator)).1 =
        .error .notInitialized :=
  ⟨rfl, rfl, rfl⟩

/-- C5: after initialization (queue present), `has_finished` is true iff the
resolved input queue is empty. -/
theorem c5_has_finished_iff_queue_empty
    (st : ReaderState) (l : List String) (h : st.inputs = some l) :
    has_finished st = some true ↔ l = [] := by
  simp [has_finished, h, List.isEmpty_iff]

/-- Witness for C5: an exhausted queue reports finished. -/
theorem c5_witness :
    has_finished { demoSt with inputs := some [] } = some true :=
  (c5_has_finished_iff_queue_empty { demoSt with inputs := some [] } [] rfl).mpr rfl

/-- C6: `finalize` is idempotent — a second consecutive call leaves the state
exactly as after the first, and a call with no current-input marker set is a
no-op. -/
theorem c6_finalize_idempotent (st : ReaderState) :
    finalize (finalize st) = finalize st ∧
      (st.current_input = none → finalize st = st) := by
  constructor
  · rw [finalize_eq st, finalize_eq]
  · intro h
    rw [finalize_eq st]
    cases st with
    | mk s sl sep i ci sci =>
      cases h
      rfl

/-- Witness for C6 on a marker-free state. -/
theorem c6_witness :
    finalize (finalize demoSt) = finalize demoSt ∧ finalize demoSt = demoSt :=
  ⟨(c6_finalize_idempotent demoSt).1, (c6_finalize_idempotent demoSt).2 rfl⟩

/-- C7: every read cycle runs `finalize` before popping the next path, so at
the moment of the pop the current-input marker left by any previous read is
already cleared. -/
theorem c7_read_finalizes_before_pop
    (parse : String → Html) (fs : String → Option String) (st : ReaderState) :
    (finalize st).current_input = none ∧
    read parse fs st = readCore parse fs (finalize st) := by
  refine ⟨?_, rfl⟩
  rw [finalize_eq]

/-- C9 counterexample: `initialize` does NOT leave everything but the queue
untouched — with an unset separator, initialization also rewrites the
separator field (to the empty string), so populating the queue is not its
only side effect. -/
theorem c9_counterexample :
    initReader (mkReader none none none) ["f.html"] ≠
      .ok { mkReader none none none with inputs := some ["f.html"] } := by
  intro h
  have h0 : initReader (mkReader none none none) ["f.html"] =
      .ok { mkReader none none none with
              inputs := some ["f.html"], separator := some "" } := rfl
  rw [h0] at h
  simp [mkReader] at h

/-- C9 (amended): `initialize`'s side effects are populating the resolved
input queue and replacing the separator field by its normalised value; no
other reader state is mutated. -/
theorem c9_amended_init_populates_queue_normalizes_separator
    (st : ReaderState) (resolved : List String) (h : resolved ≠ []) :
    initReader st resolved =
      .ok { st with inputs := some resolved,
                    separator := some (normalizeSeparator st.separator) } :=
  initReader_ok st resolved h

/-- Witness for the amended C9. -/
theorem c9_amended_witness :
    initReader (mkReader none none none) ["f.html"] =
      .ok { mkReader none none none with
              inputs := some ["f.html"],
              separator := some (normalizeSeparator none) } :=
  c9_amended_init_populates_queue_normalizes_separator
    (mkReader none none none) ["f.html"] (by decide)

/-- A parse result with no `body` element, as `html.parser` produces for a
bodyless fragment such as the bare text `Hello`. -/
def fragParse : String → Html := fun _ => .element "[document]" [.text "Hello"]

/-- A filesystem whose single file holds the bodyless fragment. -/
def fragFs : String → Option String := fun _ => some "Hello"

/-- An initialized reader state queued on the bodyless fragment file. -/
def fragSt : ReaderState :=
  { source := some ["frag.html"], source_list := none, separator := some "",
    inputs := some ["frag.html"], current_input := none,
    session_current_input := none }

/-- C10: on an input whose parsed document has no body element, `read`
raises (attribute access on the missing body) instead of producing an
empty-content record. -/
theorem c10_missing_body_raises :
    (read fragParse fragFs fragSt).1 = .error (.noBody "frag.html") ∧
    (read fragParse fragFs fragSt).1 ≠
      .ok { content := "", meta := [("file", "frag.html")] } := by
  refine ⟨rfl, ?_⟩
  intro hcontr
  rw [show (read fragParse fragFs fragSt).1 =
        .error (.noBody "frag.html") from rfl] at hcontr
  exact Except.noConfusion hcontr

/-- Invariant of the pull loop: when every queued file is readable and has a
body, `k ≤ n` read cycles yield exactly `k` records, leave exactly the last
`n - k` queued paths (in order), and preserve the separator. -/
theorem readLoop_spec (parse : String → Html) (fs : String → Option String) :
    ∀ (k : Nat) (l : List String) (st : ReaderState) (sep : String),
      st.inputs = some l → st.separator = some sep →
      (∀ p ∈ l, ∃ c, fs p = some c ∧ (findBody (parse c)).isSome) →
      k ≤ l.length →
      (readLoop parse fs k st).1.length = k ∧
      (readLoop parse fs k st).2.inputs = some (l.drop k) ∧
      (readLoop parse fs k st).2.separator = some sep := by
  intro k
  induction k with
  | zero =>
    intro l st sep hq hsep hok hk
    simp [readLoop, hq, hsep]
  | succ k ih =>
    intro l st sep hq hsep hok hk
    cases l with
    | nil => simp at hk
    | cons p rest =>
      obtain ⟨c, hfs, hbs⟩ := hok p (List.mem_cons_self p rest)
      obtain ⟨b, hb⟩ := Option.isSome_iff_exists.mp hbs
      have hr := read_cons parse fs st p rest sep c b hq hsep hfs hb
      have hk' : k ≤ rest.length := Nat.le_of_succ_le_succ (by simpa using hk)
      have ih' := ih rest
        ({ st with inputs := some rest, current_input := some p,
                   session_current_input := some p }) sep rfl hsep
        (fun q hq' => hok q (List.mem_cons_of_mem p hq')) hk'
      simp only [readLoop, hr, List.length_cons, List.drop_succ_cons]
      exact ⟨by simpa using ih'.1, ih'.2.1, ih'.2.2⟩

/-- C8: the resolved input queue monotonically shrinks — `initialize`
populates it exactly once, `finalize` never touches it, each successful read
cycle removes exactly the head, and over a queue of `n` readable files the
pull loop yields exactly one record per consumed file, with `has_finished`
becoming true exactly when all `n` records have been produced. -/
theorem c8_queue_shrinks_one_record_per_file
    (parse : String → Html) (fs : String → Option String) :
    (∀ (st : ReaderState) (resolved : List String) (st' : ReaderState),
        initReader st resolved = .ok st' → st'.inputs = some resolved) ∧
    (∀ st : ReaderState, (finalize st).inputs = st.inputs) ∧
    (∀ (st : ReaderState) (l : List String) (sep : String),
      st.inputs = some l → st.separator = some sep →
      (∀ p ∈ l, ∃ c, fs p = some c ∧ (findBody (parse c)).isSome) →
      ∀ k, k ≤ l.length →
        (readLoop parse fs k st).1.length = k ∧
        (readLoop parse fs k st).2.inputs = some (l.drop k) ∧
        (has_finished (readLoop parse fs k st).2 = some true ↔ k = l.length)) := by
  refine ⟨?_, ?_, ?_⟩
  · intro st resolved st' h
    cases resolved with
    | nil => simp [initReader, locate_files] at h
    | cons a as =>
      rw [initReader_ok st (a :: as) (by simp)] at h
      cases h
      rfl
  · intro st
    rw [finalize_eq]
  · intro st l sep hq hsep hok k hk
    obtain ⟨h1, h2, _⟩ := readLoop_spec parse fs k l st sep hq hsep hok hk
    refine ⟨h1, h2, ?_⟩
    rw [has_finished, h2]
    simp only [Option.map_some', Option.some.injEq, List.isEmpty_iff,
      List.drop_eq_nil_iff]
    omega

/-- A two-file initialized state for the C8 witness. -/
def demoSt2 : ReaderState := { demoSt with inputs := some ["a.html", "b.html"] }

/-- Witness for C8: two queued files give exactly two records and an empty,
finished queue. -/
theorem c8_witness :
    (readLoop demoParse demoFs 2 demoSt2).1.length = 2 ∧
    (readLoop demoParse demoFs 2 demoSt2).2.inputs = some [] ∧
    has_finished (readLoop demoParse demoFs 2 demoSt2).2 = some true := by
  have h := (c8_queue_shrinks_one_record_per_file demoParse demoFs).2.2 demoSt2
    ["a.html", "b.html"] "" rfl rfl
    (fun p _ => ⟨"<body>Hello<br>World</body>", rfl, rfl⟩) 2 (by decide)
  exact ⟨h.1, h.2.1, h.2.2.mpr rfl⟩

end LdcHtml
